import Mathlib

/-!
Shallow embedding of the atlas-mcp-server task core (src/src/task-manager.ts)
together with spec-modelled collaborators that live in repository files not
present under src/ (src/types/task.ts, src/errors/index.ts, the storage layer
and the bulk coordinator).  All machine-facing definitions are executable.
-/

set_option maxRecDepth 4096

namespace Atlas

/-- Task categorization, from src/types/task.ts via the README schemas:
TASK, MILESTONE, GROUP. -/
inductive TaskType where
  | TASK
  | MILESTONE
  | GROUP
deriving DecidableEq, Repr

/-- Task execution state, from src/types/task.ts via the README schemas:
pending, in_progress, completed, failed, blocked. -/
inductive TaskStatus where
  | pending
  | in_progress
  | completed
  | failed
  | blocked
deriving DecidableEq, Repr

/-- The stored metadata bag of a task as built by TaskManager.createTask /
updateTask (task-manager.ts lines 97-103 and 168-173): creation and update
timestamps, the root path segment, a version counter, and optional
organisational fields. -/
structure TaskMetadata where
  created : Nat
  updated : Nat
  projectPath : String
  version : Nat
  priority : Option String := none
  assignee : Option String := none
deriving DecidableEq, Repr

/-- A stored task (src/types/task.ts `Task`, as populated by task-manager.ts
lines 86-104). -/
structure Task where
  path : String
  name : String
  description : Option String := none
  type : TaskType := .TASK
  status : TaskStatus := .pending
  parentPath : Option String := none
  notes : Option (List String) := none
  reasoning : Option String := none
  dependencies : List String := []
  subtasks : List String := []
  metadata : TaskMetadata
deriving DecidableEq, Repr

/-- The partial metadata object accepted on create/update input.  Presence of
a key in the JavaScript object is modelled by `some`; `dependencies` is the
legacy in-metadata dependency list that task-manager.ts extracts and deletes
(lines 79-84 and 138-156). -/
structure MetadataInput where
  dependencies : Option (List String) := none
  priority : Option String := none
  assignee : Option String := none
  projectPath : Option String := none
  created : Option Nat := none
deriving DecidableEq, Repr

/-- CreateTaskInput from src/types/task.ts, fields as read by
TaskManager.createTask.  There is no status field: createTask always stores
TaskStatus.PENDING. -/
structure CreateTaskInput where
  path : Option String := none
  name : String
  description : Option String := none
  type : Option TaskType := none
  parentPath : Option String := none
  dependencies : Option (List String) := none
  notes : Option (List String) := none
  reasoning : Option String := none
  metadata : MetadataInput := {}
deriving DecidableEq, Repr

/-- UpdateTaskInput from src/types/task.ts, fields as read by
TaskManager.updateTask (lines 137-174). -/
structure UpdateTaskInput where
  name : Option String := none
  description : Option String := none
  type : Option TaskType := none
  status : Option TaskStatus := none
  notes : Option (List String) := none
  reasoning : Option String := none
  dependencies : Option (List String) := none
  metadata : MetadataInput := {}
deriving DecidableEq, Repr

/-- Errors thrown by TaskManager via createError.  invalidInput carries the
message string; invalidParent carries the parent and child types
(task-manager.ts line 55).  cyclicDependency is modelled from the spec:
the error taxonomy file src/errors/index.ts is not under src/, and spec §7
lists a CyclicDependency kind carrying the cycle-inducing pair; TaskManager
itself never raises it. -/
inductive TaskError where
  | invalidInput (msg : String)
  | taskNotFound
  | invalidParent (parentType childType : TaskType)
  | cyclicDependency (fromPath toPath : String)
deriving DecidableEq, Repr

instance {ε α : Type} [DecidableEq ε] [DecidableEq α] : DecidableEq (Except ε α) := fun a b =>
  match a, b with
  | .ok x, .ok y =>
    if h : x = y then .isTrue (by rw [h]) else .isFalse (by simp [h])
  | .error x, .error y =>
    if h : x = y then .isTrue (by rw [h]) else .isFalse (by simp [h])
  | .ok _, .error _ => .isFalse (by simp)
  | .error _, .ok _ => .isFalse (by simp)

/-- Modelled from the spec: the TaskStore collaborator (sqlite-storage.ts is
not under src/).  A finite map from paths to tasks, as an association list. -/
def TaskStore := List (String × Task)

instance : DecidableEq TaskStore := by
  unfold TaskStore
  infer_instance

/-- Modelled from the spec: TaskStore.get — first binding for the path. -/
def getTask : TaskStore → String → Option Task
  | [], _ => none
  | (q, t) :: rest, p => if p = q then some t else getTask rest p

/-- Removes every binding for a path (helper for upsert and delete). -/
def eraseTask : TaskStore → String → TaskStore
  | [], _ => []
  | (q, t) :: rest, p => if q = p then eraseTask rest p else (q, t) :: eraseTask rest p

/-- Modelled from the spec: TaskStore.save is an upsert keyed by task.path. -/
def saveTask (st : TaskStore) (t : Task) : TaskStore :=
  (t.path, t) :: eraseTask st t.path

/-- Modelled from the spec: TaskStore.delete(path) removes the single given
path only; spec §6 states cascade-to-descendants is the core's
responsibility, issuing one delete per descendant. -/
def storageDeleteTask (st : TaskStore) (p : String) : TaskStore :=
  eraseTask st p

/-- JavaScript truthiness on an optional string: undefined and the empty
string are falsy. -/
def jsStr? (v : Option String) : Option String :=
  match v with
  | some s => if s = "" then none else some s
  | none => none

/-- JavaScript `v || old` where old is a required string field. -/
def jsOrStr (v : Option String) (old : String) : String :=
  match v with
  | some s => if s = "" then old else s
  | none => old

/-- JavaScript `v || old` where old is itself an optional string field. -/
def jsOrOptStr (v old : Option String) : Option String :=
  match v with
  | some s => if s = "" then old else some s
  | none => old

/-- Splits a character list at every separator, keeping empty pieces, like
JavaScript string split on the path separator. -/
def splitSegsAux : List Char → List Char → List (List Char)
  | [], acc => [acc.reverse]
  | c :: cs, acc =>
    if c = '/' then acc.reverse :: splitSegsAux cs [] else splitSegsAux cs (c :: acc)

/-- The segments of a path: path.split(the separator). -/
def splitSegs (p : String) : List String :=
  (splitSegsAux p.data []).map fun l => ⟨l⟩

/-- First path segment: path.split(the separator)[0]
(task-manager.ts line 101). -/
def firstSegment (p : String) : String :=
  (splitSegs p).headD ""

/-- Character class of the slug produced by generateTaskPath after
lower-casing: [a-z0-9] (the regex on task-manager.ts line 331 replaces the
complement). -/
def slugChar (c : Char) : Bool :=
  (('a' ≤ c && c ≤ 'z') || ('0' ≤ c && c ≤ '9'))

/-- The global regex replace of task-manager.ts line 331: each maximal run of
characters outside [a-z0-9] becomes a single hyphen.  The boolean state
records whether we are inside such a run (whose hyphen was already
emitted). -/
def collapseAux : Bool → List Char → List Char
  | _, [] => []
  | inRun, c :: cs =>
    if slugChar c then c :: collapseAux false cs
    else if inRun then collapseAux true cs
    else '-' :: collapseAux true cs

/-- The slug of a task name: name.toLowerCase() with every run of
non-alphanumeric characters collapsed to one hyphen
(task-manager.ts line 331). -/
def slug (s : String) : String :=
  ⟨collapseAux false (s.data.map Char.toLower)⟩

/-- TaskManager.generateTaskPath (task-manager.ts lines 322-334): the parent
path segment, when truthy, followed by the slug of the name, joined by the
path separator. -/
def generateTaskPath (inp : CreateTaskInput) : String :=
  match jsStr? inp.parentPath with
  | some pp => pp ++ "/" ++ slug inp.name
  | none => slug inp.name

/-- The path createTask operates on: input.path when truthy, otherwise the
generated path (task-manager.ts line 29). -/
def effectivePath (inp : CreateTaskInput) : String :=
  (jsStr? inp.path).getD (generateTaskPath inp)

/-- Modelled from the spec: the configured maximum path depth
(CONSTRAINTS.MAX_PATH_DEPTH in src/types/task.ts, not under src/).  The spec
fixes no concrete value; none of the verified claims depends on it. -/
def MAX_PATH_DEPTH : Nat := 8

/-- Allowed path characters per spec §4.1 and the README schema pattern:
letters, digits, underscore, dot, hyphen. -/
def pathChar (c : Char) : Bool :=
  c.isAlphanum || c = '_' || c = '.' || c = '-'

/-- Modelled from the spec: validateTaskPath of src/types/task.ts (not under
src/).  Per spec §4.1: allowed character set, no empty segments, depth at
most the configured maximum, total length bound. -/
def validateTaskPath (p : String) : Bool :=
  let segs := splitSegs p
  decide (p ≠ "") && decide (segs.length ≤ MAX_PATH_DEPTH) &&
    segs.all (fun s => decide (s ≠ "") && s.data.all pathChar) &&
    decide (p.length ≤ MAX_PATH_DEPTH * 50)

/-- Modelled from the spec: isValidTaskHierarchy of src/types/task.ts (not
under src/).  Spec §4.2 table: MILESTONE may contain TASK and GROUP, GROUP
may contain only TASK, TASK may contain nothing. -/
def isValidTaskHierarchy : TaskType → TaskType → Bool
  | .MILESTONE, .TASK => true
  | .MILESTONE, .GROUP => true
  | .GROUP, .TASK => true
  | _, _ => false

/-- The parent checks of createTask (task-manager.ts lines 41-63): when a
truthy parentPath is given, the parent must exist and the (parent.type,
child.type) pair must be permitted.  Returns the error raised, if any. -/
def parentCheck (st : TaskStore) (parentPath : Option String) (childType : TaskType) :
    Option TaskError :=
  match jsStr? parentPath with
  | none => none
  | some pp =>
    match getTask st pp with
    | none => some (.invalidInput "Parent task not found")
    | some parent =>
      if isValidTaskHierarchy parent.type childType then none
      else some (.invalidParent parent.type childType)

/-- The dependency-existence loop of createTask (task-manager.ts lines 66-76):
it runs only when input.dependencies is present and non-empty, and rejects at
the first dependency path with no stored task. -/
def depCheckCreate (st : TaskStore) (deps : Option (List String)) : Option TaskError :=
  match deps with
  | none => none
  | some ds =>
    if ds.isEmpty then none
    else
      match ds.find? (fun d => (getTask st d).isNone) with
      | some d => some (.invalidInput ("Dependency task not found: " ++ d))
      | none => none

/-- The task object built by createTask (task-manager.ts lines 86-104):
status is always PENDING, version 1, projectPath the first path segment;
input metadata is spread but its dependencies key is deleted and created /
updated / projectPath / version are overwritten. -/
def newTask (now : Nat) (inp : CreateTaskInput) (path : String) : Task :=
  { path := path
    name := inp.name
    description := inp.description
    type := inp.type.getD .TASK
    status := .pending
    parentPath := inp.parentPath
    notes := inp.notes
    reasoning := inp.reasoning
    dependencies := (inp.dependencies <|> inp.metadata.dependencies).getD []
    subtasks := []
    metadata :=
      { created := now
        updated := now
        projectPath := firstSegment path
        version := 1
        priority := inp.metadata.priority
        assignee := inp.metadata.assignee } }

/-- TaskManager.createTask (task-manager.ts lines 26-122).  Returns the store
after the call and the result; every error is thrown before the single
storage.saveTask, so on error the store is returned unchanged. -/
def createTask (st : TaskStore) (now : Nat) (inp : CreateTaskInput) :
    TaskStore × Except TaskError Task :=
  let path := effectivePath inp
  if validateTaskPath path then
    match parentCheck st inp.parentPath (inp.type.getD .TASK) with
    | some e => (st, .error e)
    | none =>
      match depCheckCreate st inp.dependencies with
      | some e => (st, .error e)
      | none => (saveTask st (newTask now inp path), .ok (newTask now inp path))
  else (st, .error (.invalidInput "Invalid task path format"))

/-- The dependency-existence loop of updateTask (task-manager.ts lines
141-152): it runs only when a fresh dependency array was supplied (directly
or through metadata.dependencies), and rejects at the first missing path. -/
def depCheckUpdate (st : TaskStore) (newDeps : Option (List String)) : Option TaskError :=
  match newDeps with
  | none => none
  | some ds =>
    match ds.find? (fun d => (getTask st d).isNone) with
    | some d => some (.invalidInput ("Dependency task not found: " ++ d))
    | none => none

/-- The updated task built by updateTask (task-manager.ts lines 159-174):
falsy name/type/status/notes/reasoning inputs keep the old value, description
is replaced whenever present, the metadata spread lets input keys (including
projectPath and created) override the stored ones, and updated / version are
then overwritten. -/
def applyUpdate (task : Task) (u : UpdateTaskInput) (deps : List String) (now : Nat) : Task :=
  { task with
    name := jsOrStr u.name task.name
    description := u.description <|> task.description
    type := u.type.getD task.type
    status := u.status.getD task.status
    notes := u.notes <|> task.notes
    reasoning := jsOrOptStr u.reasoning task.reasoning
    dependencies := deps
    metadata :=
      { created := u.metadata.created.getD task.metadata.created
        updated := now
        projectPath := u.metadata.projectPath.getD task.metadata.projectPath
        version := task.metadata.version + 1
        priority := u.metadata.priority <|> task.metadata.priority
        assignee := u.metadata.assignee <|> task.metadata.assignee } }

/-- TaskManager.updateTask (task-manager.ts lines 127-192).  Returns the
store after the call and the result; every error is thrown before the single
storage.saveTask, so on error the store is returned unchanged. -/
def updateTask (st : TaskStore) (now : Nat) (p : String) (u : UpdateTaskInput) :
    TaskStore × Except TaskError Task :=
  match getTask st p with
  | none => (st, .error .taskNotFound)
  | some task =>
    let newDeps := u.dependencies <|> u.metadata.dependencies
    match depCheckUpdate st newDeps with
    | some e => (st, .error e)
    | none =>
      let t' := applyUpdate task u (newDeps.getD task.dependencies) now
      (saveTask st t', .ok t')

/-- The result envelope metadata returned by TaskManager operations
(task-manager.ts lines 108-117, 178-187, 248-256), without the random
requestId. -/
structure ResponseMeta where
  success : Bool
  timestamp : Nat
  projectPath : String
  affectedPaths : List String
deriving DecidableEq, Repr

/-- TaskManager.deleteTask (task-manager.ts lines 245-261): one call to the
storage delete for the given path, and a response whose affectedPaths is the
singleton [path]. -/
def deleteTask (st : TaskStore) (now : Nat) (p : String) : TaskStore × ResponseMeta :=
  (storageDeleteTask st p,
   { success := true
     timestamp := now
     projectPath := firstSegment p
     affectedPaths := [p] })

/-- Direct dependency edge in the stored graph: task x exists and lists y
among its dependencies. -/
def dependsOn (st : TaskStore) (x y : String) : Bool :=
  match getTask st x with
  | some t => t.dependencies.contains y
  | none => false

/-- Modelled from the spec: one operation of the BulkOperationCoordinator
(spec §4.6); the coordinator itself is in no file under src/. -/
inductive BulkOp where
  | create (input : CreateTaskInput)
  | update (path : String) (updates : UpdateTaskInput)
  | delete (path : String)
deriving DecidableEq, Repr

/-- Modelled from the spec: the effect of a single bulk operation on a store,
through the core create/update/delete operations, with the error it raises
if any. -/
def applyOp (st : TaskStore) (now : Nat) (op : BulkOp) : TaskStore × Option TaskError :=
  match op with
  | .create inp =>
    match createTask st now inp with
    | (st', .ok _) => (st', none)
    | (st', .error e) => (st', some e)
  | .update p u =>
    match updateTask st now p u with
    | (st', .ok _) => (st', none)
    | (st', .error e) => (st', some e)
  | .delete p => ((deleteTask st now p).1, none)

/-- Modelled from the spec: the validation pass of BulkOperationCoordinator
(spec §4.6).  Each operation is validated against the union of the persisted
state and the effects of all earlier operations in the batch, by simulating
the batch in order; the index and error of the first failing operation are
reported. -/
def validateBatch (st : TaskStore) (now : Nat) (k : Nat) :
    List BulkOp → Option (Nat × TaskError)
  | [] => none
  | op :: rest =>
    match applyOp st now op with
    | (_, some e) => some (k, e)
    | (st', none) => validateBatch st' now (k + 1) rest

/-- Modelled from the spec: the apply pass of BulkOperationCoordinator,
applying the operations strictly in submitted order. -/
def applyBatch (st : TaskStore) (now : Nat) : List BulkOp → TaskStore
  | [] => st
  | op :: rest => applyBatch (applyOp st now op).1 now rest

/-- Modelled from the spec: BulkOperationCoordinator.apply (spec §4.6).  If
any operation fails validation the whole batch is rejected with the failing
index and the store is returned untouched; otherwise the operations are
applied in order. -/
def bulkApply (st : TaskStore) (now : Nat) (ops : List BulkOp) :
    TaskStore × Option (Nat × TaskError) :=
  match validateBatch st now 0 ops with
  | some e => (st, some e)
  | none => (applyBatch st now ops, none)

/-! ### Concrete fixtures for witnesses and counterexamples -/

/-- Metadata of the fixture tasks. -/
def sampleMeta : TaskMetadata :=
  { created := 0, updated := 0, projectPath := "alpha", version := 1 }

/-- Fixture: task alpha depends on beta. -/
def taskAlpha : Task :=
  { path := "alpha", name := "Alpha", dependencies := ["beta"], metadata := sampleMeta }

/-- Fixture: task beta with no dependencies. -/
def taskBeta : Task :=
  { path := "beta", name := "Beta", metadata := { sampleMeta with projectPath := "beta" } }

/-- Fixture store in which the edge alpha -> beta already exists. -/
def stCycle : TaskStore := [("alpha", taskAlpha), ("beta", taskBeta)]

/-- Fixture: a pending dependency. -/
def taskLib : Task :=
  { path := "lib", name := "Lib", metadata := { sampleMeta with projectPath := "lib" } }

/-- Fixture: a task whose sole dependency, lib, is pending (not completed). -/
def taskApp : Task :=
  { path := "app", name := "App", dependencies := ["lib"],
    metadata := { sampleMeta with projectPath := "app" } }

/-- Fixture store with an incomplete dependency. -/
def stBlocked : TaskStore := [("lib", taskLib), ("app", taskApp)]

/-- Fixture: a root task. -/
def taskProj : Task :=
  { path := "proj", name := "Proj", type := .GROUP,
    metadata := { sampleMeta with projectPath := "proj" } }

/-- Fixture: a descendant of proj. -/
def taskSub : Task :=
  { path := "proj/sub", name := "Sub", parentPath := some "proj",
    metadata := { sampleMeta with projectPath := "proj" } }

/-- Fixture store with a parent and one descendant. -/
def stTree : TaskStore := [("proj", taskProj), ("proj/sub", taskSub)]

/-- Fixture: a nested task whose projectPath is its first path segment. -/
def taskNested : Task :=
  { path := "alpha/beta", name := "Nested",
    metadata := { sampleMeta with projectPath := "alpha" } }

/-- Fixture store for the projectPath experiments. -/
def stNested : TaskStore := [("alpha/beta", taskNested)]

/-- Fixture batch whose second operation updates a nonexistent path
(spec §8 scenario 5). -/
def failingBatch : List BulkOp :=
  [.create { name := "P One", path := some "p1" },
   .update "p2" { status := some .completed },
   .create { name := "Child", path := some "p1/child" }]

/-- Fixture create input without an explicit path. -/
def inpNoPath : CreateTaskInput := { name := "My Task", parentPath := some "proj" }

/-- Fixture create input with neither a path nor a parent. -/
def inpPlain : CreateTaskInput := { name := "My Task" }

/-- Fixture update whose name, description and reasoning are all the empty
string. -/
def updEmptyStrings : UpdateTaskInput :=
  { name := some "", description := some "", reasoning := some "" }

/-- Fixture update carrying a metadata.projectPath override. -/
def updProjectPath : UpdateTaskInput := { metadata := { projectPath := some "zeta" } }

/-- Fixture create input whose parent is a TASK-typed task. -/
def inpUnderTask : CreateTaskInput := { name := "X", parentPath := some "lib" }

/-- Fixture update that adds the cycle-closing dependency edge
beta -> alpha. -/
def updCycleEdge : UpdateTaskInput := { dependencies := some ["alpha"] }

/-! ### Store lemmas -/

theorem getTask_eraseTask (st : TaskStore) (q p : String) :
    getTask (eraseTask st q) p = if p = q then none else getTask st p := by
  induction st with
  | nil => simp [eraseTask, getTask]
  | cons hd tl ih =>
    obtain ⟨r, t⟩ := hd
    by_cases hrq : r = q
    · subst hrq
      by_cases hpq : p = r
      · subst hpq
        simp [eraseTask, getTask, ih]
      · simp [eraseTask, getTask, hpq, ih]
    · by_cases hpr : p = r
      · subst hpr
        simp [eraseTask, getTask, hrq, ih]
      · simp [eraseTask, getTask, hrq, hpr, ih]

theorem getTask_saveTask (st : TaskStore) (t : Task) (p : String) :
    getTask (saveTask st t) p = if p = t.path then some t else getTask st p := by
  by_cases h : p = t.path <;> simp [saveTask, getTask, h, getTask_eraseTask]

/-! ### Characterizations of the core operations -/

/-- A successful createTask call produced exactly the task built by newTask at
the effective path, stored by a single upsert, after path validation
passed. -/
theorem createTask_ok_elim (st : TaskStore) (now : Nat) (inp : CreateTaskInput) (t : Task)
    (h : (createTask st now inp).2 = .ok t) :
    validateTaskPath (effectivePath inp) = true ∧
    t = newTask now inp (effectivePath inp) ∧
    (createTask st now inp).1 = saveTask st t := by
  by_cases hv : validateTaskPath (effectivePath inp)
  · rcases hp : parentCheck st inp.parentPath (inp.type.getD .TASK) with _ | e
    · rcases hd : depCheckCreate st inp.dependencies with _ | e
      · have ht : t = newTask now inp (effectivePath inp) := by
          simp [createTask, hv, hp, hd] at h
          exact h.symm
        refine ⟨hv, ht, ?_⟩
        simp [createTask, hv, hp, hd, ht]
      · simp [createTask, hv, hp, hd] at h
    · simp [createTask, hv, hp] at h
  · simp [createTask, hv] at h

/-- A rejected createTask call leaves the store unchanged: every error is
thrown before the single storage save. -/
theorem createTask_error_store (st : TaskStore) (now : Nat) (inp : CreateTaskInput)
    (h : (createTask st now inp).2.isOk = false) :
    (createTask st now inp).1 = st := by
  by_cases hv : validateTaskPath (effectivePath inp)
  · rcases hp : parentCheck st inp.parentPath (inp.type.getD .TASK) with _ | e
    · rcases hd : depCheckCreate st inp.dependencies with _ | e
      · simp [createTask, hv, hp, hd, Except.isOk, Except.toBool] at h
      · simp [createTask, hv, hp, hd]
    · simp [createTask, hv, hp]
  · simp [createTask, hv]

/-- A successful updateTask call found the task, passed the dependency check,
and stored exactly the task built by applyUpdate, by a single upsert. -/
theorem updateTask_ok_elim (st : TaskStore) (now : Nat) (p : String) (u : UpdateTaskInput)
    (t' : Task) (h : (updateTask st now p u).2 = .ok t') :
    ∃ task, getTask st p = some task ∧
      depCheckUpdate st (u.dependencies <|> u.metadata.dependencies) = none ∧
      t' = applyUpdate task u
        ((u.dependencies <|> u.metadata.dependencies).getD task.dependencies) now ∧
      (updateTask st now p u).1 = saveTask st t' := by
  rcases hg : getTask st p with _ | task
  · simp [updateTask, hg] at h
  · rcases hd : depCheckUpdate st (u.dependencies <|> u.metadata.dependencies) with _ | e
    · refine ⟨task, rfl, rfl, ?_, ?_⟩
      · simp [updateTask, hg, hd] at h
        exact h.symm
      · have ht : t' = applyUpdate task u
            ((u.dependencies <|> u.metadata.dependencies).getD task.dependencies) now := by
          simp [updateTask, hg, hd] at h
          exact h.symm
        simp [updateTask, hg, hd, ht]
    · simp [updateTask, hg, hd] at h

/-- A rejected updateTask call leaves the store unchanged: every error is
thrown before the single storage save. -/
theorem updateTask_error_store (st : TaskStore) (now : Nat) (p : String) (u : UpdateTaskInput)
    (h : (updateTask st now p u).2.isOk = false) :
    (updateTask st now p u).1 = st := by
  rcases hg : getTask st p with _ | task
  · simp [updateTask, hg]
  · rcases hd : depCheckUpdate st (u.dependencies <|> u.metadata.dependencies) with _ | e
    · simp [updateTask, hg, hd, Except.isOk, Except.toBool] at h
    · simp [updateTask, hg, hd]

/-! ### Claim theorems -/

/-- C5: every successful update stores metadata.version equal to the previous
version plus exactly 1, and every failed or rejected update (for example a
nonexistent dependency path) leaves the stored tasks, including the version,
unchanged. -/
theorem update_version_increment_and_failure_no_mutation
    (st : TaskStore) (now : Nat) (p : String) (u : UpdateTaskInput) :
    ((updateTask st now p u).2.isOk = false → (updateTask st now p u).1 = st) ∧
    (∀ t t', getTask st p = some t → t.path = p → (updateTask st now p u).2 = .ok t' →
      t'.metadata.version = t.metadata.version + 1 ∧
      getTask (updateTask st now p u).1 p = some t') := by
  constructor
  · exact updateTask_error_store st now p u
  · intro t t' hg hp hok
    obtain ⟨task, hg', _, ht', hst⟩ := updateTask_ok_elim st now p u t' hok
    rw [hg] at hg'
    obtain rfl : t = task := by injection hg'
    refine ⟨?_, ?_⟩
    · rw [ht']
      simp [applyUpdate]
    · rw [hst, getTask_saveTask]
      have hpath : t'.path = t.path := by
        rw [ht']
        simp [applyUpdate]
      rw [hpath, hp, if_pos rfl]

/-- Witness for C5: a concrete successful update bumps the version from 1 to
2 and stores the result. -/
theorem update_version_witness :
    getTask stBlocked "lib" = some taskLib ∧ taskLib.path = "lib" ∧
    (updateTask stBlocked 5 "lib" {}).2 =
      .ok (applyUpdate taskLib {} taskLib.dependencies 5) ∧
    (applyUpdate taskLib {} taskLib.dependencies 5).metadata.version =
      taskLib.metadata.version + 1 := by
  refine ⟨by decide, by decide, by decide, ?_⟩
  exact ((update_version_increment_and_failure_no_mutation stBlocked 5 "lib" {}).2
    taskLib (applyUpdate taskLib {} taskLib.dependencies 5)
    (by decide) (by decide) (by decide)).1

/-- C8: every successful createTask call stores a task whose status is
pending and whose metadata.version is 1; CreateTaskInput carries no status
field the caller could supply, and createTask writes TaskStatus.PENDING
unconditionally. -/
theorem create_forces_pending_and_version_one
    (st : TaskStore) (now : Nat) (inp : CreateTaskInput) (t : Task)
    (h : (createTask st now inp).2 = .ok t) :
    t.status = .pending ∧ t.metadata.version = 1 ∧
    getTask (createTask st now inp).1 t.path = some t := by
  obtain ⟨_, ht, hst⟩ := createTask_ok_elim st now inp t h
  refine ⟨?_, ?_, ?_⟩
  · rw [ht]; rfl
  · rw [ht]; rfl
  · rw [hst, getTask_saveTask, if_pos rfl]

/-- Witness for C8: a concrete create stores status pending, version 1. -/
theorem create_pending_witness :
    (createTask [] 5 inpPlain).2 = .ok (newTask 5 inpPlain (effectivePath inpPlain)) ∧
    (newTask 5 inpPlain (effectivePath inpPlain)).status = .pending ∧
    (newTask 5 inpPlain (effectivePath inpPlain)).metadata.version = 1 := by
  have h : (createTask [] 5 inpPlain).2 = .ok (newTask 5 inpPlain (effectivePath inpPlain)) := by
    decide
  obtain ⟨h1, h2, _⟩ := create_forces_pending_and_version_one [] 5 inpPlain
    (newTask 5 inpPlain (effectivePath inpPlain)) h
  exact ⟨h, h1, h2⟩

/-- C10: an update whose name field is the empty string keeps the stored name
(falsy name, reasoning, type, status and notes inputs are all ignored and the
prior value kept), whereas an update whose description field is the empty
string stores the empty description. -/
theorem falsy_name_ignored_empty_description_stored
    (st : TaskStore) (now : Nat) (p : String) (u : UpdateTaskInput) (t t' : Task)
    (hg : getTask st p = some t)
    (hname : u.name = some "") (hdesc : u.description = some "")
    (hreason : u.reasoning = some "") (htype : u.type = none)
    (hstatus : u.status = none) (hnotes : u.notes = none)
    (hok : (updateTask st now p u).2 = .ok t') :
    t'.name = t.name ∧ t'.reasoning = t.reasoning ∧ t'.type = t.type ∧
    t'.status = t.status ∧ t'.notes = t.notes ∧ t'.description = some "" := by
  obtain ⟨task, hg', _, ht', _⟩ := updateTask_ok_elim st now p u t' hok
  rw [hg] at hg'
  obtain rfl : t = task := by injection hg'
  subst ht'
  simp [applyUpdate, jsOrStr, jsOrOptStr, hname, hdesc, hreason, htype, hstatus, hnotes]

/-- Witness for C10: a concrete update with empty-string name, description
and reasoning keeps the name and stores the empty description. -/
theorem falsy_update_witness :
    getTask stBlocked "lib" = some taskLib ∧
    (updateTask stBlocked 4 "lib" updEmptyStrings).2 =
      .ok (applyUpdate taskLib updEmptyStrings taskLib.dependencies 4) ∧
    (applyUpdate taskLib updEmptyStrings taskLib.dependencies 4).name = taskLib.name ∧
    (applyUpdate taskLib updEmptyStrings taskLib.dependencies 4).description = some "" := by
  refine ⟨by decide, by decide, ?_, ?_⟩
  all_goals
    have h := falsy_name_ignored_empty_description_stored stBlocked 4 "lib" updEmptyStrings
      taskLib (applyUpdate taskLib updEmptyStrings taskLib.dependencies 4)
      (by decide) (by decide) (by decide) (by decide) (by decide) (by decide) (by decide)
      (by decide)
  · exact h.1
  · exact h.2.2.2.2.2

/-- C6 counterexample: an update whose metadata argument contains a
projectPath field overwrites the stored projectPath, so projectPath is not
immutable: the task at alpha/beta starts with projectPath alpha and ends
with projectPath zeta. -/
theorem projectPath_overwritten_counterexample :
    taskNested.metadata.projectPath = "alpha" ∧
    (updateTask stNested 9 "alpha/beta" updProjectPath).2.isOk = true ∧
    ((getTask (updateTask stNested 9 "alpha/beta" updProjectPath).1 "alpha/beta").map
      (fun t => t.metadata.projectPath)) = some "zeta" := by
  decide

/-- C6 amended: projectPath equals the first path segment at creation, and
every update whose metadata argument has no projectPath field preserves the
stored projectPath; an update supplying metadata.projectPath overwrites it. -/
theorem projectPath_first_segment_and_kept_without_override :
    (∀ (st : TaskStore) (now : Nat) (inp : CreateTaskInput) (t : Task),
      (createTask st now inp).2 = .ok t →
      t.metadata.projectPath = firstSegment t.path) ∧
    (∀ (st : TaskStore) (now : Nat) (p : String) (u : UpdateTaskInput) (t t' : Task),
      getTask st p = some t → u.metadata.projectPath = none →
      (updateTask st now p u).2 = .ok t' →
      t'.metadata.projectPath = t.metadata.projectPath) := by
  constructor
  · intro st now inp t h
    obtain ⟨_, ht, _⟩ := createTask_ok_elim st now inp t h
    subst ht
    rfl
  · intro st now p u t t' hg hnone hok
    obtain ⟨task, hg', _, ht', _⟩ := updateTask_ok_elim st now p u t' hok
    rw [hg] at hg'
    obtain rfl : t = task := by injection hg'
    subst ht'
    simp [applyUpdate, hnone]

/-- Witness for C6 amended: a concrete create sets projectPath to the first
path segment, and a concrete update without a metadata.projectPath override
preserves it. -/
theorem projectPath_witness :
    (createTask [] 5 inpPlain).2 = .ok (newTask 5 inpPlain (effectivePath inpPlain)) ∧
    (newTask 5 inpPlain (effectivePath inpPlain)).metadata.projectPath =
      firstSegment (newTask 5 inpPlain (effectivePath inpPlain)).path ∧
    (updateTask stNested 9 "alpha/beta" {}).2 =
      .ok (applyUpdate taskNested {} taskNested.dependencies 9) ∧
    (applyUpdate taskNested {} taskNested.dependencies 9).metadata.projectPath =
      taskNested.metadata.projectPath := by
  refine ⟨by decide, ?_, by decide, ?_⟩
  · exact projectPath_first_segment_and_kept_without_override.1 [] 5 inpPlain
      (newTask 5 inpPlain (effectivePath inpPlain)) (by decide)
  · exact projectPath_first_segment_and_kept_without_override.2 stNested 9 "alpha/beta" {}
      taskNested (applyUpdate taskNested {} taskNested.dependencies 9)
      (by decide) (by decide) (by decide)

/-- C7: with a parent present, creation succeeds only when the
(parent type, child type) pair is permitted by the hierarchy table, and a
hierarchy rejection reports both the parent type and the child type, leaving
the store unchanged. -/
theorem hierarchy_governs_create_and_reports_types
    (st : TaskStore) (now : Nat) (inp : CreateTaskInput) (pp : String) (parent : Task)
    (hpp : jsStr? inp.parentPath = some pp)
    (hparent : getTask st pp = some parent) :
    ((createTask st now inp).2.isOk = true →
      isValidTaskHierarchy parent.type (inp.type.getD .TASK) = true) ∧
    (validateTaskPath (effectivePath inp) = true →
      isValidTaskHierarchy parent.type (inp.type.getD .TASK) = false →
      (createTask st now inp).2 = .error (.invalidParent parent.type (inp.type.getD .TASK)) ∧
      (createTask st now inp).1 = st) := by
  have hpc : parentCheck st inp.parentPath (inp.type.getD .TASK) =
      (if isValidTaskHierarchy parent.type (inp.type.getD .TASK) then none
       else some (.invalidParent parent.type (inp.type.getD .TASK))) := by
    simp [parentCheck, hpp, hparent]
  constructor
  · intro hok
    by_contra hbad
    rw [Bool.not_eq_true] at hbad
    rw [hbad, if_neg (by simp)] at hpc
    by_cases hv : validateTaskPath (effectivePath inp)
    · simp [createTask, hv, hpc, Except.isOk, Except.toBool] at hok
    · simp [createTask, hv, Except.isOk, Except.toBool] at hok
  · intro hv hbad
    rw [hbad, if_neg (by simp)] at hpc
    exact ⟨by simp [createTask, hv, hpc], by simp [createTask, hv, hpc]⟩

/-- Witness for C7: creating a child under a TASK-typed parent is rejected
with an error carrying both types, and the store is unchanged. -/
theorem hierarchy_witness :
    jsStr? inpUnderTask.parentPath = some "lib" ∧
    getTask stBlocked "lib" = some taskLib ∧
    taskLib.type = .TASK ∧
    (createTask stBlocked 5 inpUnderTask).2 = .error (.invalidParent .TASK .TASK) ∧
    (createTask stBlocked 5 inpUnderTask).1 = stBlocked := by
  refine ⟨by decide, by decide, by decide, ?_, ?_⟩
  all_goals
    have h := (hierarchy_governs_create_and_reports_types stBlocked 5 inpUnderTask "lib"
      taskLib (by decide) (by decide)).2 (by decide) (by decide)
  · exact h.1
  · exact h.2

/-- C1 evaluated at the failing input: with the edge alpha -> beta stored,
the update that adds the cycle-closing edge beta -> alpha succeeds and
mutates the graph — the claimed CyclicDependency rejection does not exist in
updateTask, which only checks that each dependency path exists. -/
theorem cycle_edge_accepted_and_graph_mutated :
    dependsOn stCycle "alpha" "beta" = true ∧
    dependsOn stCycle "beta" "alpha" = false ∧
    (updateTask stCycle 7 "beta" updCycleEdge).2.isOk = true ∧
    dependsOn (updateTask stCycle 7 "beta" updCycleEdge).1 "beta" "alpha" = true ∧
    dependsOn (updateTask stCycle 7 "beta" updCycleEdge).1 "alpha" "beta" = true := by
  decide

/-- C2 evaluated at the failing input: task app has the pending (incomplete)
dependency lib, yet an update setting its status to in_progress or completed
stores that status directly instead of forcing blocked. -/
theorem incomplete_dep_status_stored_directly :
    dependsOn stBlocked "app" "lib" = true ∧
    (getTask stBlocked "lib").map (fun t => t.status) = some .pending ∧
    ((getTask (updateTask stBlocked 3 "app" { status := some .in_progress }).1 "app").map
      (fun t => t.status)) = some .in_progress ∧
    ((getTask (updateTask stBlocked 3 "app" { status := some .completed }).1 "app").map
      (fun t => t.status)) = some .completed := by
  decide

/-- C3 evaluated at the failing input: deleting proj issues one single-path
storage delete, leaves the descendant proj/sub in the store, and reports
affectedPaths as the singleton list containing only proj. -/
theorem delete_leaves_descendant_and_reports_only_root :
    getTask stTree "proj/sub" = some taskSub ∧
    getTask (deleteTask stTree 0 "proj").1 "proj" = none ∧
    getTask (deleteTask stTree 0 "proj").1 "proj/sub" = some taskSub ∧
    (deleteTask stTree 0 "proj").2.affectedPaths = ["proj"] := by
  decide

/-- C4: whenever the bulk coordinator rejects a batch because some operation
failed validation, the store after the call is exactly the store before the
call. -/
theorem bulk_validation_failure_leaves_store_untouched
    (st : TaskStore) (now : Nat) (ops : List BulkOp) (ke : Nat × TaskError)
    (h : (bulkApply st now ops).2 = some ke) :
    (bulkApply st now ops).1 = st := by
  unfold bulkApply at h ⊢
  rcases hv : validateBatch st now 0 ops with _ | e
  · rw [hv] at h
    simp at h
  · rfl

/-- Witness for C4: the three-operation batch whose second operation updates
a nonexistent path is rejected at index 1 and leaves the empty store empty. -/
theorem bulk_atomicity_witness :
    (bulkApply [] 0 failingBatch).2 = some (1, .taskNotFound) ∧
    (bulkApply [] 0 failingBatch).1 = [] := by
  refine ⟨by decide, ?_⟩
  exact bulk_validation_failure_leaves_store_untouched [] 0 failingBatch
    (1, .taskNotFound) (by decide)

/-! ### Slug lemmas for the derived-path claim -/

theorem slugChar_ne_dash {c : Char} (h : slugChar c = true) : c ≠ '-' := by
  intro hc
  subst hc
  exact absurd h (by decide)

theorem collapseAux_true_head :
    ∀ (l : List Char) (c : Char) (cs : List Char),
      collapseAux true l = c :: cs → slugChar c = true := by
  intro l
  induction l with
  | nil =>
    intro c cs h
    simp [collapseAux] at h
  | cons d ds ih =>
    intro c cs h
    by_cases hd : slugChar d
    · simp [collapseAux, hd] at h
      rw [← h.1]
      exact hd
    · simp [collapseAux, hd] at h
      exact ih c cs h

theorem collapseAux_mem :
    ∀ (l : List Char) (b : Bool) (c : Char),
      c ∈ collapseAux b l → slugChar c = true ∨ c = '-' := by
  intro l
  induction l with
  | nil =>
    intro b c h
    simp [collapseAux] at h
  | cons d ds ih =>
    intro b c h
    by_cases hd : slugChar d
    · simp [collapseAux, hd] at h
      rcases h with rfl | h
      · exact Or.inl hd
      · exact ih false c h
    · cases b
      · simp [collapseAux, hd] at h
        rcases h with rfl | h
        · exact Or.inr rfl
        · exact ih true c h
      · simp [collapseAux, hd] at h
        exact ih true c h

theorem collapseAux_chain :
    ∀ (l : List Char) (b : Bool),
      (collapseAux b l).Chain' (fun a b => ¬(a = '-' ∧ b = '-')) := by
  intro l
  induction l with
  | nil =>
    intro b
    simp [collapseAux]
  | cons d ds ih =>
    intro b
    by_cases hd : slugChar d
    · simp only [collapseAux, hd, if_true]
      have h2 := ih false
      rcases hc : collapseAux false ds with _ | ⟨e, es⟩
      · simp [hc]
      · rw [hc] at h2
        rw [List.chain'_cons]
        refine ⟨?_, h2⟩
        rintro ⟨hd', _⟩
        exact slugChar_ne_dash hd hd'
    · cases b
      · simp only [collapseAux, hd, if_false, Bool.false_eq_true, if_neg]
        have h2 := ih true
        rcases hc : collapseAux true ds with _ | ⟨e, es⟩
        · simp [hc]
        · rw [hc] at h2
          rw [List.chain'_cons]
          refine ⟨?_, h2⟩
          rintro ⟨_, he⟩
          exact slugChar_ne_dash (collapseAux_true_head ds e es hc) he
      · simp only [collapseAux, hd, if_false, Bool.false_eq_true, if_neg]
        exact ih true

theorem collapseAux_filter :
    ∀ (l : List Char) (b : Bool),
      (collapseAux b l).filter slugChar = l.filter slugChar := by
  intro l
  induction l with
  | nil =>
    intro b
    simp [collapseAux]
  | cons d ds ih =>
    intro b
    by_cases hd : slugChar d
    · simp [collapseAux, hd, List.filter_cons, ih]
    · cases b
      · simp [collapseAux, hd, List.filter_cons, ih, show slugChar '-' = false by decide]
      · simp [collapseAux, hd, List.filter_cons, ih]

/-- C9: for a create input with no explicit path, createTask behaves exactly
as it would on the derived path — so the derived path is subjected to the
same validation — and the derived path joins the truthy parent path with a
slug of the name in which every character is a lower-case alphanumeric or
the separator, no two separators are adjacent (each non-alphanumeric run
collapsed to one), and the alphanumeric content is that of the lower-cased
name. -/
theorem derived_path_same_validation_and_slug
    (st : TaskStore) (now : Nat) (inp : CreateTaskInput) (hnp : inp.path = none) :
    createTask st now inp =
      createTask st now { inp with path := some (generateTaskPath inp) } ∧
    generateTaskPath inp =
      (match jsStr? inp.parentPath with
       | some pp => pp ++ "/" ++ slug inp.name
       | none => slug inp.name) ∧
    (∀ c ∈ (slug inp.name).data, slugChar c = true ∨ c = '-') ∧
    (slug inp.name).data.Chain' (fun a b => ¬(a = '-' ∧ b = '-')) ∧
    (slug inp.name).data.filter slugChar =
      (inp.name.data.map Char.toLower).filter slugChar := by
  refine ⟨?_, rfl, ?_, ?_, ?_⟩
  · have hgen : ∀ (v : Option String), generateTaskPath { inp with path := v } =
        generateTaskPath inp := fun _ => rfl
    have h1 : effectivePath { inp with path := some (generateTaskPath inp) } =
        effectivePath inp := by
      by_cases hg : generateTaskPath inp = "" <;>
        simp [effectivePath, jsStr?, hnp, hgen, hg]
    unfold createTask
    rw [h1]
    rfl
  · intro c hc
    exact collapseAux_mem (inp.name.data.map Char.toLower) false c hc
  · exact collapseAux_chain (inp.name.data.map Char.toLower) false
  · exact collapseAux_filter (inp.name.data.map Char.toLower) false

/-- Witness for C9: the concrete input named My Task under parent proj
derives the path proj/my-task and createTask treats it exactly like that
explicit path. -/
theorem derived_path_witness :
    inpNoPath.path = none ∧
    generateTaskPath inpNoPath = "proj/my-task" ∧
    createTask stTree 5 inpNoPath =
      createTask stTree 5 { inpNoPath with path := some "proj/my-task" } := by
  have hgen : generateTaskPath inpNoPath = "proj/my-task" := by decide
  have h := (derived_path_same_validation_and_slug stTree 5 inpNoPath rfl).1
  rw [hgen] at h
  exact ⟨rfl, hgen, h⟩

end Atlas
